import Mathlib

/-!
Shallow embedding of the driver-compliance aggregation logic of `src/Trans.py`:
the Normalizer step of `fetch_metabase_data` (column padding), the grouped
counts (`df_hub_trips`, `df_driver_trips`, `df_spoc_trips`, `df_today_summary`),
the last-7-days pivot (`df_pivot`), and the driver-set comparator
(`common_drivers`).  Timestamps are represented as seconds since the proleptic
Gregorian epoch (`Nat`) and calendar dates as day ordinals, mirroring
`pd.Timestamp` values and `.dt.date` arithmetic; the pandas grouping
semantics used by the source (`groupby`/`pivot_table` with their defaults:
null group keys dropped, group keys sorted ascending) are embedded explicitly.
-/

namespace TransPy

/-! ### Lexicographic string comparison

Python compares strings (and tuples of strings) lexicographically by code
point; this is embedded as an `Ordering`-valued comparison on the character
lists underlying `String`. -/

/-- Code-point lexicographic comparison of character lists. -/
def dataCmp : List Char → List Char → Ordering
  | [], [] => .eq
  | [], _ :: _ => .lt
  | _ :: _, [] => .gt
  | a :: as, b :: bs =>
    if a.toNat < b.toNat then .lt
    else if b.toNat < a.toNat then .gt
    else dataCmp as bs

/-- Lexicographic comparison of lists of character lists (Python tuple
comparison, component-wise). -/
def lexCmp : List (List Char) → List (List Char) → Ordering
  | [], [] => .eq
  | [], _ :: _ => .lt
  | _ :: _, [] => .gt
  | x :: xs, y :: ys =>
    match dataCmp x y with
    | .lt => .lt
    | .gt => .gt
    | .eq => lexCmp xs ys

/-- `a <= b` for Python strings. -/
abbrev strLE (a b : String) : Prop := dataCmp a.data b.data ≠ .gt

theorem dataCmp_swap : ∀ as bs, dataCmp bs as = (dataCmp as bs).swap := by
  intro as
  induction as with
  | nil => intro bs; cases bs <;> rfl
  | cons a as ih =>
    intro bs
    cases bs with
    | nil => rfl
    | cons b bs =>
      by_cases h1 : a.toNat < b.toNat
      · have h2 : ¬ b.toNat < a.toNat := by omega
        simp [dataCmp, h1, h2, Ordering.swap]
      · by_cases h2 : b.toNat < a.toNat
        · simp [dataCmp, h1, h2, Ordering.swap]
        · simp [dataCmp, h1, h2, ih bs]

/-- Left congruence: comparing equal lists against anything agrees. -/
theorem dataCmp_congr_left : ∀ as bs cs, dataCmp as bs = .eq →
    dataCmp as cs = dataCmp bs cs := by
  intro as
  induction as with
  | nil =>
    intro bs cs h
    cases bs with
    | nil => rfl
    | cons b bs => simp [dataCmp] at h
  | cons a as ih =>
    intro bs cs h
    cases bs with
    | nil => simp [dataCmp] at h
    | cons b bs =>
      by_cases h1 : a.toNat < b.toNat
      · simp [dataCmp, h1] at h
      · by_cases h2 : b.toNat < a.toNat
        · simp [dataCmp, h1, h2] at h
        · simp only [dataCmp, if_neg h1, if_neg h2] at h
          cases cs with
          | nil => simp [dataCmp]
          | cons c cs =>
            have hab : a.toNat = b.toNat := by omega
            simp only [dataCmp, hab, ih bs cs h]

theorem dataCmp_lt_trans : ∀ as bs cs, dataCmp as bs = .lt →
    dataCmp bs cs = .lt → dataCmp as cs = .lt := by
  intro as
  induction as with
  | nil =>
    intro bs cs h1 h2
    cases bs with
    | nil => exact h2
    | cons b bs =>
      cases cs with
      | nil => simp [dataCmp] at h2
      | cons c cs => rfl
  | cons a as ih =>
    intro bs cs h1 h2
    cases bs with
    | nil => simp [dataCmp] at h1
    | cons b bs =>
      cases cs with
      | nil => simp [dataCmp] at h2
      | cons c cs =>
        simp only [dataCmp] at h1 h2 ⊢
        by_cases hab : a.toNat < b.toNat
        · by_cases hbc : b.toNat < c.toNat
          · rw [if_pos (by omega)]
          · by_cases hcb : c.toNat < b.toNat
            · simp [if_neg hbc, if_pos hcb] at h2
            · rw [if_pos (by omega)]
        · by_cases hba : b.toNat < a.toNat
          · simp [if_pos hba, if_neg hab] at h1
          · by_cases hbc : b.toNat < c.toNat
            · rw [if_pos (by omega)]
            · by_cases hcb : c.toNat < b.toNat
              · simp [if_neg hbc, if_pos hcb] at h2
              · rw [if_neg (by omega), if_neg (by omega)]
                simp only [if_neg hab, if_neg hba] at h1
                simp only [if_neg hbc, if_neg hcb] at h2
                exact ih bs cs h1 h2

theorem dataCmp_le_trans {as bs cs : List Char} (h1 : dataCmp as bs ≠ .gt)
    (h2 : dataCmp bs cs ≠ .gt) : dataCmp as cs ≠ .gt := by
  cases hab : dataCmp as bs with
  | gt => exact absurd hab h1
  | eq => rw [dataCmp_congr_left as bs cs hab]; exact h2
  | lt =>
    cases hbc : dataCmp bs cs with
    | gt => exact absurd hbc h2
    | lt => rw [dataCmp_lt_trans as bs cs hab hbc]; simp
    | eq =>
      have hcb : dataCmp cs bs = .eq := by
        rw [dataCmp_swap]; rw [hbc]; rfl
      rw [show dataCmp as cs = (dataCmp cs as).swap by rw [dataCmp_swap],
        dataCmp_congr_left cs bs as hcb, dataCmp_swap, hab]
      simp

theorem dataCmp_total (as bs : List Char) :
    dataCmp as bs ≠ .gt ∨ dataCmp bs as ≠ .gt := by
  cases h : dataCmp as bs with
  | lt => left; simp [h]
  | eq => left; simp [h]
  | gt => right; rw [dataCmp_swap, h]; simp [Ordering.swap]

instance : IsTotal String strLE := ⟨fun a b => dataCmp_total a.data b.data⟩

instance : IsTrans String strLE := ⟨fun _ _ _ => dataCmp_le_trans⟩

theorem lexCmp_swap : ∀ xs ys, lexCmp ys xs = (lexCmp xs ys).swap := by
  intro xs
  induction xs with
  | nil => intro ys; cases ys <;> rfl
  | cons x xs ih =>
    intro ys
    cases ys with
    | nil => rfl
    | cons y ys =>
      simp only [lexCmp, dataCmp_swap x y]
      cases dataCmp x y <;> simp [Ordering.swap, ih ys]

theorem lexCmp_congr_left : ∀ xs ys zs, lexCmp xs ys = .eq →
    lexCmp xs zs = lexCmp ys zs := by
  intro xs
  induction xs with
  | nil =>
    intro ys zs h
    cases ys with
    | nil => rfl
    | cons y ys => simp [lexCmp] at h
  | cons x xs ih =>
    intro ys zs h
    cases ys with
    | nil => simp [lexCmp] at h
    | cons y ys =>
      simp only [lexCmp] at h
      cases hxy : dataCmp x y with
      | lt => rw [hxy] at h; simp at h
      | gt => rw [hxy] at h; simp at h
      | eq =>
        rw [hxy] at h
        cases zs with
        | nil => rfl
        | cons z zs =>
          simp only [lexCmp, dataCmp_congr_left x y z hxy, ih ys zs h]

theorem lexCmp_lt_trans : ∀ xs ys zs, lexCmp xs ys = .lt →
    lexCmp ys zs = .lt → lexCmp xs zs = .lt := by
  intro xs
  induction xs with
  | nil =>
    intro ys zs h1 h2
    cases ys with
    | nil => exact h2
    | cons y ys =>
      cases zs with
      | nil => simp [lexCmp] at h2
      | cons z zs => rfl
  | cons x xs ih =>
    intro ys zs h1 h2
    cases ys with
    | nil => simp [lexCmp] at h1
    | cons y ys =>
      cases zs with
      | nil => simp [lexCmp] at h2
      | cons z zs =>
        simp only [lexCmp] at h1 h2 ⊢
        cases hxy : dataCmp x y with
        | gt => rw [hxy] at h1; simp at h1
        | lt =>
          cases hyz : dataCmp y z with
          | gt => rw [hyz] at h2; simp at h2
          | lt => rw [dataCmp_lt_trans x y z hxy hyz]
          | eq =>
            have hzy : dataCmp z y = .eq := by rw [dataCmp_swap, hyz]; rfl
            have : dataCmp x z = dataCmp x y := by
              rw [show dataCmp x z = (dataCmp z x).swap by rw [dataCmp_swap],
                dataCmp_congr_left z y x hzy, dataCmp_swap]
              cases dataCmp x y <;> rfl
            rw [this, hxy]
        | eq =>
          rw [hxy] at h1
          cases hyz : dataCmp y z with
          | gt => rw [hyz] at h2; simp at h2
          | lt => rw [dataCmp_congr_left x y z hxy, hyz]
          | eq =>
            rw [hyz] at h2
            rw [dataCmp_congr_left x y z hxy, hyz]
            exact ih ys zs h1 h2

theorem lexCmp_le_trans {xs ys zs : List (List Char)}
    (h1 : lexCmp xs ys ≠ .gt) (h2 : lexCmp ys zs ≠ .gt) :
    lexCmp xs zs ≠ .gt := by
  cases hxy : lexCmp xs ys with
  | gt => exact absurd hxy h1
  | eq => rw [lexCmp_congr_left xs ys zs hxy]; exact h2
  | lt =>
    cases hyz : lexCmp ys zs with
    | gt => exact absurd hyz h2
    | lt => rw [lexCmp_lt_trans xs ys zs hxy hyz]; simp
    | eq =>
      have hzy : lexCmp zs ys = .eq := by rw [lexCmp_swap, hyz]; rfl
      rw [show lexCmp xs zs = (lexCmp zs xs).swap by rw [lexCmp_swap],
        lexCmp_congr_left zs ys xs hzy, lexCmp_swap, hxy]
      simp

theorem lexCmp_total (xs ys : List (List Char)) :
    lexCmp xs ys ≠ .gt ∨ lexCmp ys xs ≠ .gt := by
  cases h : lexCmp xs ys with
  | lt => left; simp [h]
  | eq => left; simp [h]
  | gt => right; rw [lexCmp_swap, h]; simp [Ordering.swap]

/-! ### Date handling

Models `pd.to_datetime(value, errors='coerce')` followed by `.dt.date` for the
ISO `YYYY-MM-DD[ time]` strings the datasets carry: a successful parse yields
the proleptic-Gregorian day ordinal, anything else yields `none` (pandas
`NaT`). -/

def isLeapYear (y : Nat) : Bool :=
  (y % 4 == 0 && y % 100 != 0) || y % 400 == 0

def monthLen (leap : Bool) (m : Nat) : Nat :=
  if m = 2 then (if leap then 29 else 28)
  else if m = 4 ∨ m = 6 ∨ m = 9 ∨ m = 11 then 30
  else 31

def daysBeforeMonth (leap : Bool) (m : Nat) : Nat :=
  ((List.range (m - 1)).map (fun i => monthLen leap (i + 1))).sum

/-- Proleptic-Gregorian day ordinal of a calendar date (1-1-1 has ordinal 1),
as Python's `date.toordinal`. -/
def ymdToOrd (y m d : Nat) : Nat :=
  365 * (y - 1) + (y - 1) / 4 - (y - 1) / 100 + (y - 1) / 400
    + daysBeforeMonth (isLeapYear y) m + d

/-- Splits a character list at every occurrence of `c` (like `str.split`). -/
def splitOnChar (c : Char) : List Char → List (List Char)
  | [] => [[]]
  | x :: xs =>
    match splitOnChar c xs with
    | [] => if x = c then [[], []] else [[x]]
    | g :: gs => if x = c then [] :: g :: gs else (x :: g) :: gs

/-- The decimal value of a digit character, `none` for non-digits. -/
def digitVal (c : Char) : Option Nat :=
  if 48 ≤ c.toNat ∧ c.toNat ≤ 57 then some (c.toNat - 48) else none

def digitsAux : List Char → Nat → Option Nat
  | [], acc => some acc
  | c :: cs, acc =>
    match digitVal c with
    | some d => digitsAux cs (acc * 10 + d)
    | none => none

/-- A non-empty all-digit character list as a number, else `none`. -/
def digitsToNat (l : List Char) : Option Nat :=
  if l.isEmpty then none else digitsAux l 0

/-- The calendar-date part `"YYYY-MM-DD"` as a day ordinal. -/
def parseYMD (l : List Char) : Option Nat :=
  match splitOnChar '-' l with
  | [ys, ms, ds] =>
    match digitsToNat ys, digitsToNat ms, digitsToNat ds with
    | some y, some m, some d =>
      if 1 ≤ y ∧ 1 ≤ m ∧ m ≤ 12 ∧ 1 ≤ d ∧ d ≤ monthLen (isLeapYear y) m then
        some (ymdToOrd y m d)
      else none
    | _, _, _ => none
  | _ => none

/-- Seconds past midnight of an `"HH:MM:SS"` time part. -/
def parseTimeOfDay (l : List Char) : Option Nat :=
  match splitOnChar ':' l with
  | [hs, ms, ss] =>
    match digitsToNat hs, digitsToNat ms, digitsToNat ss with
    | some h, some m, some s =>
      if h ≤ 23 ∧ m ≤ 59 ∧ s ≤ 59 then some (h * 3600 + m * 60 + s) else none
    | _, _, _ => none
  | _ => none

/-- Best-effort datetime parsing, modelling `pd.to_datetime(errors='coerce')`:
`"YYYY-MM-DD"` or `"YYYY-MM-DD HH:MM:SS"` to seconds since the proleptic
epoch (time of day preserved); any other shape parses to `none` (NaT). -/
def parseTS (s : String) : Option Nat :=
  match splitOnChar ' ' s.data with
  | [datePart] => (parseYMD datePart).map (fun o => o * 86400)
  | [datePart, timePart] =>
    match parseYMD datePart, parseTimeOfDay timePart with
    | some o, some t => some (o * 86400 + t)
    | _, _ => none
  | _ => none

/-- The calendar date (`.dt.date`) of a parsed timestamp, as a day ordinal. -/
def tsDate (t : Nat) : Nat := t / 86400

/-- `.dt.date` after best-effort parsing: the day ordinal of the parsed
timestamp, `none` for NaT. -/
def parseDate (s : String) : Option Nat :=
  (parseTS s).map tsDate

/-! ### Data model

A row of the trips dataset (dataset 2); a missing cell is `none` (NaN).  The
table remembers whether the `Driver` and `Scheduled At` columns exist at all,
because `common_drivers` guards on column presence. -/

structure TripRow where
  customer : Option String
  driver : Option String
  hub : Option String
  spoc : Option String
  scheduledAt : Option String
deriving DecidableEq, Repr

structure TripsDF where
  hasDriver : Bool
  hasScheduledAt : Bool
  rows : List TripRow
deriving DecidableEq, Repr

/-- The datetime-valued `Scheduled At` column after
`pd.to_datetime(df_2['Scheduled At'], errors='coerce')` (line 288), on one
row: the full timestamp, `none` for NaT. -/
def parseSAdt (r : TripRow) : Option Nat :=
  r.scheduledAt.bind parseTS

/-- `pd.to_datetime(df['Scheduled At'], errors='coerce').dt.date` on one row,
as used by the date filters. -/
def parseSA (r : TripRow) : Option Nat :=
  r.scheduledAt.bind parseDate

/-! ### Single-column grouped counts

`df.groupby(col).size().reset_index(...)` with pandas defaults: rows whose key
is null are dropped (`dropna=True`), one output row per distinct key, keys
sorted ascending (`sort=True`). -/

/-- The number of occurrences of `a` in `l` (the size of a pandas group). -/
def countEq {α : Type} [DecidableEq α] (l : List α) (a : α) : Nat :=
  (l.filter (fun x => x = a)).length

def groupbySize (keys : List (Option String)) : List (String × Nat) :=
  (List.insertionSort strLE (keys.filterMap id).dedup).map
    (fun k => (k, countEq keys (some k)))

/-- `df_2.groupby('Hub').size().reset_index(name='Trip Count')` (line 207). -/
def df_hub_trips (rows : List TripRow) : List (String × Nat) :=
  groupbySize (rows.map (·.hub))

/-- `df_2.groupby('Driver').size().reset_index(name='Total Trips')` (line 220). -/
def df_driver_trips (rows : List TripRow) : List (String × Nat) :=
  groupbySize (rows.map (·.driver))

/-- `df_2.groupby('Spoc').size().reset_index(name='Total Trips')` (line 237). -/
def df_spoc_trips (rows : List TripRow) : List (String × Nat) :=
  groupbySize (rows.map (·.spoc))

/-! ### Multi-key grouped counts and date filters -/

/-- A (Customer, Driver, Spoc) grouping key. -/
abbrev Key := String × String × String

/-- The grouping key of a row, `none` when any component is null — pandas
`groupby(['Customer', 'Driver', 'Spoc'])` drops such rows (`dropna=True`). -/
def keyOf (r : TripRow) : Option Key :=
  match r.customer, r.driver, r.spoc with
  | some c, some d, some s => some (c, d, s)
  | _, _, _ => none

/-- Lexicographic order on grouping keys, as Python compares string tuples. -/
abbrev keyLE (a b : Key) : Prop :=
  lexCmp [a.1.data, a.2.1.data, a.2.2.data] [b.1.data, b.2.1.data, b.2.2.data] ≠ .gt

instance : IsTotal Key keyLE :=
  ⟨fun a b => lexCmp_total [a.1.data, a.2.1.data, a.2.2.data]
    [b.1.data, b.2.1.data, b.2.2.data]⟩

instance : IsTrans Key keyLE := ⟨fun _ _ _ => lexCmp_le_trans⟩

/-- `df.groupby(['Customer', 'Driver', 'Spoc']).size()` with pandas defaults:
null-keyed rows dropped, one row per distinct key, keys ascending. -/
def groupbyCDS (rows : List TripRow) : List (Key × Nat) :=
  (List.insertionSort keyLE (rows.filterMap keyOf).dedup).map
    (fun k => (k, countEq (rows.filterMap keyOf) k))

/-- `df_2[df_2['Scheduled At'].dt.date == today_date]` (line 341). -/
def df_today (rows : List TripRow) (today : Nat) : List TripRow :=
  rows.filter (fun r => parseSA r == some today)

/-- Lines 344–350: the (Customer, Driver, Spoc) count over today's rows, with
the synthetic Grand Total row appended. -/
def df_today_summary (rows : List TripRow) (today : Nat) : List (Key × Nat) :=
  let groups := groupbyCDS (df_today rows today)
  groups ++ [(("Grand Total", "", ""), (groups.map (·.2)).sum)]

/-- `[(today - Timedelta(days=i)).date() for i in range(6, -1, -1)]`
(line 285): the dates `today - 6, …, today`, ascending. -/
def last_7_days (today : Nat) : List Nat :=
  (List.range 7).map (fun i => today + i - 6)

/-- `df_2[df_2['Scheduled At'].dt.date.isin(last_7_days)]` (line 291); a `NaT`
date is never in the window. -/
def df_filtered (rows : List TripRow) (today : Nat) : List TripRow :=
  rows.filter (fun r =>
    match parseSA r with
    | some d => (last_7_days today).contains d
    | none => false)

/-- `df_2[df_2['Scheduled At'].dt.date == yesterday]` (lines 263–264). -/
def df_2_yesterday (rows : List TripRow) (today : Nat) : List TripRow :=
  rows.filter (fun r => parseSA r == some (today - 1))

/-! ### The last-7-days pivot (lines 294–310) -/

/-- One pivot cell: the number of rows with the given key and the given
`Scheduled At` timestamp (`aggfunc='size'`, `fill_value=0`). -/
def pivotCell (rows : List TripRow) (k : Key) (t : Nat) : Nat :=
  (rows.filter (fun r => keyOf r == some k && parseSAdt r == some t)).length

/-- The pivot output: the column labels — the datetime-valued `Scheduled At`
entries, ascending, as produced by `pivot_table` with `columns='Scheduled At'`
(line 296; the rename at line 303 only stringifies the `pd.Timestamp` labels)
— the keyed body rows, and the Grand Total row of per-column sums (lines
306–310). -/
structure PivotResult where
  cols : List Nat
  body : List (Key × List Nat)
  grandTotal : List Nat
deriving DecidableEq, Repr

/-- `df_filtered.pivot_table(index=['Customer','Driver','Spoc'],
columns='Scheduled At', aggfunc='size', fill_value=0)` plus the appended Grand
Total row.  The filter keeps rows whose calendar date lies in the window, but
the columns are the raw timestamps — same-date rows with different times give
distinct columns.  `pivot_table` groups over the non-null-keyed rows, so both
the columns and the body keys come from rows whose key is fully non-null. -/
def df_pivot (rows : List TripRow) (today : Nat) : PivotResult :=
  let kept := (df_filtered rows today).filter (fun r => (keyOf r).isSome)
  let cols := List.insertionSort (fun a b => a ≤ b) (kept.filterMap parseSAdt).dedup
  let keys := List.insertionSort keyLE (kept.filterMap keyOf).dedup
  { cols := cols
    body := keys.map (fun k => (k, cols.map (fun t => pivotCell kept k t)))
    grandTotal := cols.map (fun t => (keys.map (fun k => pivotCell kept k t)).sum) }

/-! ### The comparator (lines 256–275) -/

/-- Lines 256–269: guard on the `Driver` columns and the `Scheduled At` column,
filter dataset 2 to yesterday (`today - 1`), drop null drivers from both sides
(`dropna()`), intersect, and sort ascending (`sorted(set.intersection)`).  The
guarded-out branches only emit a warning, i.e. produce no drivers. -/
def common_drivers (df_1 df_2 : TripsDF) (today : Nat) : List String :=
  if df_1.hasDriver && df_2.hasDriver then
    if df_2.hasScheduledAt then
      let drivers_3021 := (df_1.rows.filterMap (·.driver)).dedup
      let drivers_3023_yesterday :=
        ((df_2_yesterday df_2.rows today).filterMap (·.driver)).dedup
      List.insertionSort strLE
        (drivers_3021.filter (fun x => drivers_3023_yesterday.contains x))
    else []
  else []

/-! ### The Normalizer step of `fetch_metabase_data` (lines 121–126) -/

/-- The largest original column length, `max(len(v) for v in data.values())`;
on an empty mapping Python's `max` raises `ValueError`. -/
def maxColLen (data : List (String × List (Option String))) : Nat :=
  (data.map (fun kv => kv.2.length)).foldr Nat.max 0

/-- The normalization step of `fetch_metabase_data`: given the decoded column
mapping (the HTTP fetch and shape checks abstracted away), right-pad every
column with `None` to the maximum column length.  On a zero-column mapping
the `max` call raises `ValueError` (modelled as `Except.error`). -/
def fetch_metabase_data (data : List (String × List (Option String))) :
    Except String (List (String × List (Option String))) :=
  if data.isEmpty then
    Except.error "ValueError: max() arg is an empty sequence"
  else
    Except.ok (data.map (fun kv =>
      (kv.1, kv.2 ++ List.replicate (maxColLen data - kv.2.length) none)))

/-! ### Helper lemmas -/

theorem countEq_eq_count {α : Type} [DecidableEq α] (l : List α) (a : α) :
    countEq l a = l.count a := by
  induction l with
  | nil => rfl
  | cons x l ih =>
    unfold countEq at ih ⊢
    rw [List.filter_cons, List.count_cons]
    by_cases hx : x = a
    · subst hx
      simp [ih]
    · simp [hx, ih, Ne.symm hx]

theorem countEq_filterMap_id {α : Type} [DecidableEq α] (l : List (Option α)) (a : α) :
    countEq (l.filterMap id) a = countEq l (some a) := by
  induction l with
  | nil => rfl
  | cons x l ih =>
    cases x with
    | none => simpa [countEq, List.filterMap_cons, List.filter_cons] using ih
    | some b =>
      simp only [countEq, List.filterMap_cons, List.filter_cons] at ih ⊢
      by_cases hb : b = a
      · subst hb
        simp [ih]
      · simp [hb, ih]

theorem length_filterMap_isSome {α β : Type} (f : α → Option β) (l : List α) :
    (l.filterMap f).length = (l.filter (fun a => (f a).isSome)).length := by
  induction l with
  | nil => rfl
  | cons x l ih =>
    rw [List.filterMap_cons, List.filter_cons]
    cases hx : f x <;> simp [hx, ih]

theorem sum_map_countEq_sorted {α : Type} [DecidableEq α] (r : α → α → Prop)
    [DecidableRel r] (l : List α) :
    ((List.insertionSort r l.dedup).map (fun k => countEq l k)).sum = l.length := by
  have h : (fun k => countEq l k) = fun k => l.count k :=
    funext (countEq_eq_count l)
  rw [h, ((List.perm_insertionSort r l.dedup).map (fun k => l.count k)).sum_eq,
    List.sum_map_count_dedup_eq_length]

theorem le_maxColLen (data : List (String × List (Option String))) :
    ∀ kv ∈ data, kv.2.length ≤ maxColLen data := by
  induction data with
  | nil => intro kv h; cases h
  | cons x t ih =>
    intro kv h
    rcases List.mem_cons.mp h with rfl | h'
    · exact Nat.le_max_left _ _
    · exact Nat.le_trans (ih kv h') (Nat.le_max_right _ _)

theorem mem_df_2_yesterday {rows : List TripRow} {today : Nat} {r : TripRow} :
    r ∈ df_2_yesterday rows today ↔ r ∈ rows ∧ parseSA r = some (today - 1) := by
  simp [df_2_yesterday, List.mem_filter]

theorem mem_common_drivers {df_1 df_2 : TripsDF} {today : Nat}
    (h1 : df_1.hasDriver = true) (h2 : df_2.hasDriver = true)
    (h3 : df_2.hasScheduledAt = true) (x : String) :
    x ∈ common_drivers df_1 df_2 today ↔
      (∃ r ∈ df_1.rows, r.driver = some x) ∧
      (∃ r ∈ df_2.rows, parseSA r = some (today - 1) ∧ r.driver = some x) := by
  unfold common_drivers
  rw [h1, h2, h3]
  simp [List.mem_insertionSort, List.mem_filter, List.mem_dedup, List.mem_filterMap,
    mem_df_2_yesterday, List.elem_iff, and_assoc]

theorem common_drivers_sorted (df_1 df_2 : TripsDF) (today : Nat) :
    List.Sorted strLE (common_drivers df_1 df_2 today) ∧
      (common_drivers df_1 df_2 today).Nodup := by
  unfold common_drivers
  split
  · split
    · exact ⟨List.sorted_insertionSort _ _,
        (List.perm_insertionSort _ _).nodup_iff.mpr ((List.nodup_dedup _).filter _)⟩
    · exact ⟨List.sorted_nil, List.nodup_nil⟩
  · exact ⟨List.sorted_nil, List.nodup_nil⟩

/-! ### C9: empty column mapping makes the Normalizer raise -/

/-- C9: when the service returns a well-formed but empty column mapping, the
normalization step of `fetch_metabase_data` raises `ValueError` (Python `max`
over the empty sequence of column lengths) instead of returning an empty
table. -/
theorem fetch_empty_mapping_error :
    fetch_metabase_data [] = Except.error "ValueError: max() arg is an empty sequence" :=
  rfl

/-! ### C5: the Normalizer pads ragged columns to equal length -/

/-- C5: for every non-empty raw column mapping, the Normalizer succeeds and
returns a table whose columns all have length equal to the maximum original
column length, obtained by right-padding with the null marker, so the total
cell count is the number of columns times that maximum. -/
theorem normalizer_pads_columns (data : List (String × List (Option String)))
    (h : data ≠ []) :
    ∃ out, fetch_metabase_data data = Except.ok out ∧
      out.length = data.length ∧
      (∀ kv ∈ out, kv.2.length = maxColLen data) ∧
      (out.map (fun kv => kv.2.length)).sum = data.length * maxColLen data ∧
      out = data.map (fun kv =>
        (kv.1, kv.2 ++ List.replicate (maxColLen data - kv.2.length) none)) := by
  refine ⟨_, ?_, List.length_map _ _, ?_, ?_, rfl⟩
  · unfold fetch_metabase_data
    rw [if_neg (by simpa [List.isEmpty_iff] using h)]
  · intro kv hkv
    rcases List.mem_map.mp hkv with ⟨kv0, hkv0, rfl⟩
    have hle := le_maxColLen data kv0 hkv0
    simp only [List.length_append, List.length_replicate]
    omega
  · rw [List.map_map]
    have hcongr : ∀ kv ∈ data,
        ((fun kv => kv.2.length) ∘ (fun kv =>
          (kv.1, kv.2 ++ List.replicate (maxColLen data - kv.2.length)
            (none : Option String)))) kv = maxColLen data := by
      intro kv hkv
      have hle := le_maxColLen data kv hkv
      simp only [Function.comp_apply, List.length_append, List.length_replicate]
      omega
    rw [List.map_congr_left hcongr]
    induction data with
    | nil => rfl
    | cons x t ih =>
      simp [Nat.succ_mul, Nat.add_comm]

/-- A concrete ragged two-column mapping. -/
def data0 : List (String × List (Option String)) :=
  [("a", [some "x", none]), ("b", [])]

/-- Witness for C5 on a concrete ragged mapping. -/
theorem normalizer_pads_columns_witness :
    data0 ≠ [] ∧
      ∃ out, fetch_metabase_data data0 = Except.ok out ∧
        out.length = data0.length ∧
        (∀ kv ∈ out, kv.2.length = maxColLen data0) ∧
        (out.map (fun kv => kv.2.length)).sum = data0.length * maxColLen data0 ∧
        out = data0.map (fun kv =>
          (kv.1, kv.2 ++ List.replicate (maxColLen data0 - kv.2.length) none)) :=
  ⟨by decide, normalizer_pads_columns data0 (by decide)⟩

/-! ### C7: unparsable dates become null and are excluded from date filters -/

/-- C7: a `Scheduled At` value that fails date parsing becomes null (`NaT`),
and a row with a null parsed date is excluded from the yesterday filter, the
last-7-days filter and the today filter. -/
theorem unparsable_dates_excluded (rows : List TripRow) (today : Nat)
    (r : TripRow) (s : String) (h1 : r.scheduledAt = some s)
    (h2 : parseDate s = none) :
    parseSA r = none ∧ r ∉ df_2_yesterday rows today ∧
      r ∉ df_filtered rows today ∧ r ∉ df_today rows today := by
  have hp : parseSA r = none := by
    unfold parseSA
    rw [h1]
    exact h2
  refine ⟨hp, fun hm => ?_, fun hm => ?_, fun hm => ?_⟩
  · have := (List.mem_filter.mp hm).2
    rw [hp] at this
    simp at this
  · have := (List.mem_filter.mp hm).2
    rw [hp] at this
    simp at this
  · have := (List.mem_filter.mp hm).2
    rw [hp] at this
    simp at this

/-- A row whose `Scheduled At` is not a date. -/
def rBad : TripRow := ⟨some "C", some "A", none, some "S", some "hello world"⟩

/-- Witness for C7 at a concrete unparsable value. -/
theorem unparsable_dates_excluded_witness :
    rBad.scheduledAt = some "hello world" ∧ parseDate "hello world" = none ∧
      (parseSA rBad = none ∧ rBad ∉ df_2_yesterday [rBad] 738895 ∧
        rBad ∉ df_filtered [rBad] 738895 ∧ rBad ∉ df_today [rBad] 738895) :=
  ⟨rfl, by decide,
    unparsable_dates_excluded [rBad] 738895 rBad "hello world" rfl (by decide)⟩

/-! ### C10: null drivers never influence the comparator -/

/-- C10: the comparator drops null `Driver` values from both datasets before
intersecting: adding a row with a null driver to either input leaves the
output unchanged, so the output never contains a null identifier. -/
theorem comparator_ignores_null_drivers (df_1 df_2 : TripsDF) (today : Nat)
    (r : TripRow) (h : r.driver = none) :
    common_drivers ⟨df_1.hasDriver, df_1.hasScheduledAt, r :: df_1.rows⟩ df_2 today
        = common_drivers df_1 df_2 today ∧
      common_drivers df_1 ⟨df_2.hasDriver, df_2.hasScheduledAt, r :: df_2.rows⟩ today
        = common_drivers df_1 df_2 today := by
  constructor
  · unfold common_drivers
    simp only [List.filterMap_cons, h]
  · unfold common_drivers
    have hy : (df_2_yesterday (r :: df_2.rows) today).filterMap (fun r => r.driver)
        = (df_2_yesterday df_2.rows today).filterMap (fun r => r.driver) := by
      unfold df_2_yesterday
      rw [List.filter_cons]
      split
      · simp [List.filterMap_cons, h]
      · rfl
    simp only [hy]

/-- A row with a null driver. -/
def rNullDriver : TripRow := ⟨some "C1", none, some "H1", some "S1", some "2024-01-10"⟩

/-- A row with driver `"A"` scheduled on 2024-01-10 (ordinal 738895). -/
def rDriverA : TripRow := ⟨some "C1", some "A", some "H1", some "S1", some "2024-01-10"⟩

/-- Witness for C10: consing a null-driver row onto dataset 1 leaves the
comparator output unchanged. -/
theorem comparator_ignores_null_drivers_witness :
    common_drivers ⟨true, true, [rNullDriver, rDriverA]⟩ ⟨true, true, [rDriverA]⟩ 738895
      = common_drivers ⟨true, true, [rDriverA]⟩ ⟨true, true, [rDriverA]⟩ 738895 :=
  (comparator_ignores_null_drivers ⟨true, true, [rDriverA]⟩
    ⟨true, true, [rDriverA]⟩ 738895 rNullDriver rfl).1

/-! ### C4: the comparator computes a sorted, deduplicated intersection -/

/-- C4: the comparator output is always an ascending, deduplicated sequence;
it is empty whenever either input lacks a `Driver` column; and when the
required columns are present, a driver is in the output exactly when it
occurs in dataset 1 and in dataset 2 restricted to the default target date
(yesterday), so an empty intersection gives an empty sequence. -/
theorem comparator_spec (df_1 df_2 : TripsDF) (today : Nat) :
    List.Sorted strLE (common_drivers df_1 df_2 today) ∧
      (common_drivers df_1 df_2 today).Nodup ∧
      ((df_1.hasDriver = false ∨ df_2.hasDriver = false) →
        common_drivers df_1 df_2 today = []) ∧
      (df_1.hasDriver = true → df_2.hasDriver = true → df_2.hasScheduledAt = true →
        ∀ x, x ∈ common_drivers df_1 df_2 today ↔
          ((∃ r ∈ df_1.rows, r.driver = some x) ∧
            ∃ r ∈ df_2_yesterday df_2.rows today, r.driver = some x)) := by
  refine ⟨(common_drivers_sorted df_1 df_2 today).1,
    (common_drivers_sorted df_1 df_2 today).2, ?_, ?_⟩
  · intro h
    unfold common_drivers
    rcases h with h | h <;> rw [h] <;> simp
  · intro h1 h2 h3 x
    rw [mem_common_drivers h1 h2 h3 x]
    constructor
    · rintro ⟨ha, r, hr, hp, hd⟩
      exact ⟨ha, r, mem_df_2_yesterday.mpr ⟨hr, hp⟩, hd⟩
    · rintro ⟨ha, r, hr, hd⟩
      rcases mem_df_2_yesterday.mp hr with ⟨hr', hp⟩
      exact ⟨ha, r, hr', hp, hd⟩

/-- A row with driver `"A"` scheduled on 2024-01-09 (ordinal 738894). -/
def rDriverA9 : TripRow := ⟨some "C2", some "A", none, none, some "2024-01-09"⟩

/-- A dataset-1 table without a `Driver` column. -/
def dfNoDriver : TripsDF := ⟨false, true, [rDriverA]⟩

/-- Witness for C4: driver `"A"` is common to both concrete tables (dataset 2
filtered to yesterday of 2024-01-10), and a missing `Driver` column yields the
empty sequence. -/
theorem comparator_spec_witness :
    "A" ∈ common_drivers ⟨true, true, [rDriverA]⟩ ⟨true, true, [rDriverA9]⟩ 738895 ∧
      common_drivers dfNoDriver ⟨true, true, [rDriverA9]⟩ 738895 = [] := by
  have h := comparator_spec ⟨true, true, [rDriverA]⟩ ⟨true, true, [rDriverA9]⟩ 738895
  have h0 := comparator_spec dfNoDriver ⟨true, true, [rDriverA9]⟩ 738895
  exact ⟨(h.2.2.2 rfl rfl rfl "A").mpr ⟨⟨rDriverA, by decide, rfl⟩,
    ⟨rDriverA9, by decide, rfl⟩⟩, h0.2.2.1 (Or.inl rfl)⟩

/-! ### C8: the comparator is commutative on same-date tables -/

/-- C8: when both tables carry the `Driver` and `Scheduled At` columns and are
filtered to one common date, the driver set of `common_drivers A B` equals
that of `common_drivers B A`. -/
theorem comparator_comm (df_1 df_2 : TripsDF) (today d : Nat)
    (h1 : df_1.hasDriver = true) (h2 : df_2.hasDriver = true)
    (h3 : df_1.hasScheduledAt = true) (h4 : df_2.hasScheduledAt = true)
    (hA : ∀ r ∈ df_1.rows, parseSA r = some d)
    (hB : ∀ r ∈ df_2.rows, parseSA r = some d) (x : String) :
    x ∈ common_drivers df_1 df_2 today ↔ x ∈ common_drivers df_2 df_1 today := by
  rw [mem_common_drivers h1 h2 h4 x, mem_common_drivers h2 h1 h3 x]
  constructor
  · rintro ⟨⟨r1, hr1, hd1⟩, r2, hr2, hp2, hd2⟩
    have hd : some d = some (today - 1) := by rw [← hB r2 hr2, hp2]
    exact ⟨⟨r2, hr2, hd2⟩, r1, hr1, by rw [hA r1 hr1, hd], hd1⟩
  · rintro ⟨⟨r2, hr2, hd2⟩, r1, hr1, hp1, hd1⟩
    have hd : some d = some (today - 1) := by rw [← hA r1 hr1, hp1]
    exact ⟨⟨r1, hr1, hd1⟩, r2, hr2, by rw [hB r2 hr2, hd], hd2⟩

/-- A row with driver `"A"` scheduled at a 2024-01-09 timestamp with a time
part. -/
def rDriverA9b : TripRow := ⟨some "C3", some "A", none, none, some "2024-01-09 08:00:00"⟩

/-- Witness for C8 on two distinct one-row tables both dated 2024-01-09, with
`today` = 2024-01-10. -/
theorem comparator_comm_witness :
    "A" ∈ common_drivers ⟨true, true, [rDriverA9]⟩ ⟨true, true, [rDriverA9b]⟩ 738895 ∧
      "A" ∈ common_drivers ⟨true, true, [rDriverA9b]⟩ ⟨true, true, [rDriverA9]⟩ 738895 := by
  have h := comparator_comm ⟨true, true, [rDriverA9]⟩ ⟨true, true, [rDriverA9b]⟩
    738895 738894 rfl rfl rfl rfl (by decide) (by decide) "A"
  have hl : "A" ∈ common_drivers ⟨true, true, [rDriverA9]⟩
      ⟨true, true, [rDriverA9b]⟩ 738895 := by decide
  exact ⟨hl, h.mp hl⟩

/-! ### More helper lemmas for the grouped counts -/

theorem mem_map_pair {α β : Type} (c : α → β) (L : List α) (k : α) (n : β) :
    (k, n) ∈ L.map (fun k => (k, c k)) ↔ k ∈ L ∧ n = c k := by
  constructor
  · intro h
    rcases List.mem_map.mp h with ⟨a, ha, heq⟩
    have h1 : a = k := congrArg Prod.fst heq
    subst h1
    exact ⟨ha, (congrArg Prod.snd heq).symm⟩
  · rintro ⟨hk, rfl⟩
    exact List.mem_map.mpr ⟨k, hk, rfl⟩

theorem mem_filterMap_id {α : Type} (l : List (Option α)) (a : α) :
    a ∈ l.filterMap id ↔ some a ∈ l := by
  simp [List.mem_filterMap]

theorem mem_groupbySize {keys : List (Option String)} {k : String} {n : Nat} :
    (k, n) ∈ groupbySize keys ↔ some k ∈ keys ∧ n = countEq keys (some k) := by
  unfold groupbySize
  rw [mem_map_pair, List.mem_insertionSort, List.mem_dedup, mem_filterMap_id]

theorem map_fst_groupbySize (keys : List (Option String)) :
    (groupbySize keys).map Prod.fst
      = List.insertionSort strLE (keys.filterMap id).dedup := by
  unfold groupbySize
  rw [List.map_map]
  exact List.map_id _


/-! ### C1: what the sum of the group counts equals -/

/-- Counterexample to C1 as stated: with a null-driver row present, the group
counts of `df_driver_trips` do not sum to the total row count — pandas
`groupby` drops the null key instead of putting it in an "unknown" group. -/
theorem null_keys_dropped_cex :
    ¬ (((df_driver_trips [rNullDriver, rDriverA]).map (fun kv => kv.2)).sum
        = ([rNullDriver, rDriverA] : List TripRow).length) := by
  decide

/-- C1 (amended): count aggregates drop rows whose grouping key (or any key
component) is null, so the sum of all group counts equals the number of input
rows whose key is fully non-null — not the total input row count. -/
theorem count_groups_sum (rows : List TripRow) (today : Nat) :
    ((df_driver_trips rows).map (fun kv => kv.2)).sum
        = (rows.filter (fun r => r.driver.isSome)).length ∧
      ((groupbyCDS (df_today rows today)).map (fun kv => kv.2)).sum
        = ((df_today rows today).filter (fun r => (keyOf r).isSome)).length := by
  constructor
  · unfold df_driver_trips groupbySize
    rw [List.map_map]
    have h1 : ((fun kv : String × Nat => kv.2) ∘ fun k =>
        (k, countEq (rows.map (fun r => r.driver)) (some k)))
        = fun k => countEq ((rows.map (fun r => r.driver)).filterMap id) k :=
      funext (fun k => (countEq_filterMap_id _ k).symm)
    rw [h1]
    refine (sum_map_countEq_sorted strLE _).trans ?_
    rw [show (rows.map (fun r => r.driver)).filterMap id
        = rows.filterMap (fun r => r.driver) from List.filterMap_map ..]
    exact length_filterMap_isSome _ rows
  · unfold groupbyCDS
    rw [List.map_map]
    have h1 : ((fun kv : Key × Nat => kv.2) ∘ fun k =>
        (k, countEq ((df_today rows today).filterMap keyOf) k))
        = fun k => countEq ((df_today rows today).filterMap keyOf) k := rfl
    rw [h1]
    exact (sum_map_countEq_sorted keyLE _).trans (length_filterMap_isSome keyOf _)

/-! ### C6: shape and order of count-aggregate output -/

/-- The three example trip rows of the spec: drivers A, B, A. -/
def eA : TripRow := ⟨none, some "A", none, none, some "2024-01-01"⟩

def eB : TripRow := ⟨none, some "B", none, none, some "2024-01-01"⟩

def eA2 : TripRow := ⟨none, some "A", none, none, some "2024-01-02"⟩

/-- Counterexample to C6 as stated: with a null driver present, the output
does not have one row per distinct key value present in the data (the null
key value gets no row). -/
theorem one_row_per_key_cex :
    ¬ ((df_driver_trips [rNullDriver, rDriverA]).length
        = (([rNullDriver, rDriverA] : List TripRow).map (fun r => r.driver)).dedup.length) := by
  decide

/-- C6 (amended): a count aggregate returns one (key, count) row per distinct
non-null key present in the data, in ascending lexical key order; rows with
drivers A, B, A yield `[("A", 2), ("B", 1)]`. -/
theorem count_aggregate_rows (rows : List TripRow) (k : String) (n : Nat) :
    List.Sorted strLE ((df_driver_trips rows).map Prod.fst) ∧
      ((df_driver_trips rows).map Prod.fst).Nodup ∧
      ((k, n) ∈ df_driver_trips rows ↔
        some k ∈ rows.map (fun r => r.driver) ∧
          n = countEq (rows.map (fun r => r.driver)) (some k)) ∧
      df_driver_trips [eA, eB, eA2] = [("A", 2), ("B", 1)] := by
  refine ⟨?_, ?_, mem_groupbySize, by decide⟩
  · rw [df_driver_trips, map_fst_groupbySize]
    exact List.sorted_insertionSort _ _
  · rw [df_driver_trips, map_fst_groupbySize]
    exact (List.perm_insertionSort _ _).nodup_iff.mpr (List.nodup_dedup _)

/-- Witness for C6: the spec's own example, read off through the theorem. -/
theorem count_aggregate_rows_witness :
    ("A", 2) ∈ df_driver_trips [eA, eB, eA2] :=
  (count_aggregate_rows [eA, eB, eA2] "A" 2).2.2.1.mpr ⟨by decide, by decide⟩

/-! ### C2: behaviour on the empty table -/

/-- Counterexample to C2 as stated: on an empty input table, the today
summary is not an empty sequence — the code unconditionally appends the
synthetic Grand Total row. -/
theorem empty_input_not_empty_cex : ¬ (df_today_summary [] 0 = []) := by
  decide

/-- C2 (amended): every aggregate is total on the empty well-formed table
(no error is possible); the plain groupby aggregates and the comparator
return empty sequences, while the today summary and the last-7-days pivot
return no key rows but do contain the synthetic Grand Total row with count
zero. -/
theorem empty_input_behavior (today : Nat) :
    df_hub_trips [] = [] ∧ df_driver_trips [] = [] ∧ df_spoc_trips [] = [] ∧
      groupbyCDS [] = [] ∧
      df_today_summary [] today = [(("Grand Total", "", ""), 0)] ∧
      (df_pivot [] today).cols = [] ∧ (df_pivot [] today).body = [] ∧
      (df_pivot [] today).grandTotal = [] ∧
      common_drivers ⟨true, true, []⟩ ⟨true, true, []⟩ today = [] :=
  ⟨rfl, rfl, rfl, rfl, rfl, rfl, rfl, rfl, rfl⟩

/-! ### C3: shape of the last-7-days pivot -/

theorem pivotCell_kept (l : List TripRow) (k : Key) (d : Nat) :
    pivotCell (l.filter (fun r => (keyOf r).isSome)) k d = pivotCell l k d := by
  unfold pivotCell
  rw [List.filter_filter]
  congr 1
  apply List.filter_congr
  intro r _
  cases hk : keyOf r <;> simp [hk]

/-- A row keyed (C, D, S) scheduled on 2024-01-10 (ordinal 738895). -/
def rPivot : TripRow := ⟨some "C", some "D", none, some "S", some "2024-01-10"⟩

/-- Two rows with the same key and the same calendar date 2024-01-10 but
different times of day. -/
def rT1 : TripRow := ⟨some "C", some "D", none, some "S", some "2024-01-10 08:00:00"⟩

def rT2 : TripRow := ⟨some "C", some "D", none, some "S", some "2024-01-10 09:00:00"⟩

/-- Counterexample to C3 as stated: with data on only one date of the window,
the pivot has one column, not one column per date of the last-7-days window;
moreover the columns are keyed by the raw timestamps, so two same-date rows
with different times give two columns (each with cell count 1), not one date
column with cell count 2. -/
theorem pivot_window_columns_cex :
    ¬ ((df_pivot [rPivot] 738895).cols.length = (last_7_days 738895).length) ∧
      (df_pivot [rT1, rT2] 738895).cols.length = 2 ∧
      (df_pivot [rT1, rT2] 738895).body = [(("C", "D", "S"), [1, 1])] := by
  refine ⟨by decide, by decide, by decide⟩

/-- C3 (amended): the pivot's columns are exactly the distinct `Scheduled At`
timestamps occurring in the window-filtered non-null-keyed data (not one
column per calendar date of the window; same-date rows with different times
give separate columns), ascending and deduplicated; its body has one row per
distinct non-null (Customer, Driver, Spoc) key of the filtered data, whose
cells count the rows matching that key and that exact timestamp (zero for
absent combinations among those columns); and the Grand Total entry of each
column is that column's sum over the body. -/
theorem pivot_spec (rows : List TripRow) (today : Nat) :
    List.Sorted (fun a b => a ≤ b) (df_pivot rows today).cols ∧
      (df_pivot rows today).cols.Nodup ∧
      (∀ t, t ∈ (df_pivot rows today).cols ↔
        ∃ r ∈ df_filtered rows today, (keyOf r).isSome ∧ parseSAdt r = some t) ∧
      (∀ k, k ∈ (df_pivot rows today).body.map Prod.fst ↔
        ∃ r ∈ df_filtered rows today, keyOf r = some k) ∧
      (∀ k cells, (k, cells) ∈ (df_pivot rows today).body →
        cells = (df_pivot rows today).cols.map
          (fun t => pivotCell (df_filtered rows today) k t)) ∧
      (∀ (i : Nat) (t : Nat), (df_pivot rows today).cols[i]? = some t →
        (df_pivot rows today).grandTotal[i]? =
          some (((df_pivot rows today).body.map (fun kc : Key × List Nat => (kc.2[i]?).getD 0)).sum)) := by
  refine ⟨List.sorted_insertionSort _ _,
    (List.perm_insertionSort _ _).nodup_iff.mpr (List.nodup_dedup _), ?_, ?_, ?_, ?_⟩
  · intro t
    show t ∈ List.insertionSort (fun a b => a ≤ b)
        (((df_filtered rows today).filter
          (fun r => (keyOf r).isSome)).filterMap parseSAdt).dedup ↔ _
    rw [List.mem_insertionSort, List.mem_dedup, List.mem_filterMap]
    constructor
    · rintro ⟨r, hr, hp⟩
      rcases List.mem_filter.mp hr with ⟨hr', hs⟩
      exact ⟨r, hr', by simpa using hs, hp⟩
    · rintro ⟨r, hr, hs, hp⟩
      exact ⟨r, List.mem_filter.mpr ⟨hr, by simpa using hs⟩, hp⟩
  · intro k
    have hfst : (df_pivot rows today).body.map Prod.fst
        = List.insertionSort keyLE
          (((df_filtered rows today).filter
            (fun r => (keyOf r).isSome)).filterMap keyOf).dedup := by
      show (List.map _ _).map Prod.fst = _
      rw [List.map_map]
      exact List.map_id _
    rw [hfst, List.mem_insertionSort, List.mem_dedup, List.mem_filterMap]
    constructor
    · rintro ⟨r, hr, hk⟩
      exact ⟨r, (List.mem_filter.mp hr).1, hk⟩
    · rintro ⟨r, hr, hk⟩
      exact ⟨r, List.mem_filter.mpr ⟨hr, by simp [hk]⟩, hk⟩
  · intro k cells hmem
    have hmem' := (mem_map_pair
      (fun k => ((df_pivot rows today).cols).map
        (fun t => pivotCell ((df_filtered rows today).filter
          (fun r => (keyOf r).isSome)) k t)) _ k cells).mp hmem
    rw [hmem'.2]
    exact List.map_congr_left (fun t _ => pivotCell_kept _ k t)
  · intro i t hi
    show (List.map _ _)[i]? = _
    rw [List.getElem?_map]
    have hi' : (List.insertionSort (fun a b => a ≤ b)
        (((df_filtered rows today).filter
          (fun r => (keyOf r).isSome)).filterMap parseSAdt).dedup)[i]? = some t := hi
    rw [hi']
    show some _ = some _
    congr 1
    rw [show (df_pivot rows today).body.map (fun kc : Key × List Nat => (kc.2[i]?).getD 0)
        = (List.insertionSort keyLE
            (((df_filtered rows today).filter
              (fun r => (keyOf r).isSome)).filterMap keyOf).dedup).map
          (fun k => ((((df_pivot rows today).cols).map
            (fun e => pivotCell ((df_filtered rows today).filter
              (fun r => (keyOf r).isSome)) k e))[i]?).getD 0) from List.map_map ..]
    refine congrArg List.sum ?_
    refine (List.map_congr_left ?_).symm
    intro k _
    rw [List.getElem?_map, hi]
    rfl

/-- Witness for C3: the 08:00 and 09:00 timestamps of 2024-01-10 are both
present as columns, and the Grand Total entry of column 0 equals that
column's body sum. -/
theorem pivot_spec_witness :
    (738895 * 86400 + 8 * 3600) ∈ (df_pivot [rT1, rT2] 738895).cols ∧
      (738895 * 86400 + 9 * 3600) ∈ (df_pivot [rT1, rT2] 738895).cols ∧
      (df_pivot [rT1, rT2] 738895).grandTotal[0]? =
        some (((df_pivot [rT1, rT2] 738895).body.map (fun kc : Key × List Nat => (kc.2[0]?).getD 0)).sum) := by
  have h := pivot_spec [rT1, rT2] 738895
  exact ⟨(h.2.2.1 (738895 * 86400 + 8 * 3600)).mpr ⟨rT1, by decide, by decide, by decide⟩,
    (h.2.2.1 (738895 * 86400 + 9 * 3600)).mpr ⟨rT2, by decide, by decide, by decide⟩,
    h.2.2.2.2.2 0 (738895 * 86400 + 8 * 3600) (by decide)⟩

end TransPy
